import Mathlib

/-!
Shallow embedding of the HDB resale-price dashboard (`src/app.py`):
the fetcher `load_all_data`, the cleaner `clean_data`, and the
filter/aggregate pipeline of `run_dashboard` (sampling, town filter,
year slider, metrics), together with theorems settling the spec claims.

Cell values are modelled by `Value` (pandas object cells: strings,
numbers, datetimes, and missing NaN/NaT/None collapsed into `na`);
a row is an association list from column names to values and a
DataFrame is a column list plus a row list.
-/

namespace HDB

/-- Python exceptions that can escape the modelled code paths:
`KeyError` (missing dict key / DataFrame column) and `ValueError`
(covers `pd.to_datetime` parse errors and `int` of NaN). -/
inductive PyExn where
  | keyError (k : String)
  | valueError (msg : String)
deriving DecidableEq, Repr

/-- A pandas cell: a string, a (rational) number standing for the
int/float values, a datetime reduced to its year and month components,
or missing (`NaN`/`NaT`/`None` collapsed). -/
inductive Value where
  | str (s : String)
  | num (q : Rat)
  | date (y : Int) (m : Nat)
  | na
deriving DecidableEq, Repr

/-- A DataFrame row: association list from column name to cell value. -/
abbrev Row := List (String × Value)

/-- A DataFrame: a list of column names plus the rows. -/
structure Dataset where
  cols : List String
  rows : List Row
deriving DecidableEq, Repr

/-- First binding of a key in a row, if any. -/
def rowGet? : Row → String → Option Value
  | [], _ => none
  | (k, v) :: r, c => if k = c then some v else rowGet? r c

/-- Cell access: the first binding of the key, `na` when the key is
absent from the row. -/
def getVal (r : Row) (c : String) : Value :=
  match rowGet? r c with
  | some v => v
  | none => Value.na

/-- Whether a row carries a binding for a key. -/
def hasKey (r : Row) (c : String) : Bool :=
  match rowGet? r c with
  | some _ => true
  | none => false

/-- Rewrite every binding of key `c` through `f`, leaving other
bindings untouched (a column-level map restricted to one row). -/
def mapAtKey (c : String) (f : Value → Value) : Row → Row
  | [] => []
  | (k, v) :: r => (if k = c then (k, f v) else (k, v)) :: mapAtKey c f r

/-- Column assignment `df[c] = v` at row level: overwrite the bindings
of `c` when present, append a new binding otherwise. -/
def setCol (c : String) (v : Value) (r : Row) : Row :=
  if hasKey r c then mapAtKey c (fun _ => v) r else r ++ [(c, v)]

/-- Numeric value of a nonempty all-digit character list. -/
def parseDigits (l : List Char) : Option Nat :=
  if l ≠ [] ∧ l.all Char.isDigit then
    some (l.foldl (fun a c => 10 * a + (c.toNat - 48)) 0)
  else none

/-- Strip leading and trailing spaces from a character list. -/
def trimChars (l : List Char) : List Char :=
  ((l.dropWhile (fun c => c == ' ')).reverse.dropWhile (fun c => c == ' ')).reverse

/-- Numeric parse of a string, as `pd.to_numeric` accepts it: optional
sign, then a decimal literal `digits` or `digits.digits`, with value
`±(intpart·10^k + fracpart) / 10^k` for `k` fractional digits
(exponent forms are not modelled; no claim depends on them). `none`
models a parse failure. -/
def parseNumeric (s : String) : Option Rat :=
  let cs := trimChars s.data
  let signed : Bool × List Char :=
    match cs with
    | '-' :: rest => (true, rest)
    | '+' :: rest => (false, rest)
    | _ => (false, cs)
  let mk : Nat → Nat → Rat := fun num den =>
    if signed.1 then mkRat (-(num : Int)) den else mkRat (num : Int) den
  match signed.2.splitOn '.' with
  | [a] => (parseDigits a).map (fun n => mk n 1)
  | [a, b] =>
    match parseDigits a, parseDigits b with
    | some n, some f => some (mk (n * 10 ^ b.length + f) (10 ^ b.length))
    | _, _ => none
  | _ => none

/-- The per-cell behaviour of `pd.to_numeric(col, errors='coerce')`:
numeric strings parse to their value, unparseable strings coerce to
missing, numbers and missing pass through, and non-numeric objects
(datetimes) coerce to missing. Never raises. -/
def toNumeric : Value → Value
  | .str s =>
    match parseNumeric s with
    | some q => .num q
    | none => .na
  | .num q => .num q
  | .date _ _ => .na
  | .na => .na

/-- Parse of a `YYYY-MM` month string into year and month components
(the format the data source uses; other `pd.to_datetime` formats are
not modelled — unparseable strings raise, matching errors='raise'). -/
def parseMonth (s : String) : Option (Int × Nat) :=
  match (trimChars s.data).splitOn '-' with
  | [y, m] =>
    match parseDigits y, parseDigits m with
    | some yn, some mn => if 1 ≤ mn ∧ mn ≤ 12 then some ((yn : Int), mn) else none
    | _, _ => none
  | _ => none

/-- Calendar year of a raw number fed to `pd.to_datetime`, which pandas
reads as nanoseconds since the epoch; approximated with the average
Gregorian year. No claim depends on this value, only on it being a
deterministic date. -/
def epochYear (q : Rat) : Int :=
  1970 + (q.floor / 31556952000000000)

/-- The per-cell behaviour of `pd.to_datetime` with default
`errors='raise'`: strings must parse (else the call raises), datetimes
pass through, missing becomes `NaT`, and raw numbers convert as an
epoch offset. -/
def toDatetimeE : Value → Except PyExn Value
  | .str s =>
    match parseMonth s with
    | some ym => .ok (.date ym.1 ym.2)
    | none => .error (.valueError ("could not parse " ++ s))
  | .date y m => .ok (.date y m)
  | .na => .ok .na
  | .num q => .ok (.date (epochYear q) 1)

/-- Whether an `Except` computation succeeded. -/
def exceptOk {ε α : Type} : Except ε α → Bool
  | .ok _ => true
  | .error _ => false

/-- The value of a successful `toDatetimeE`, with a dummy for the
raising case (only used under a proof / guard that it succeeds). -/
def toDatetimeVal (v : Value) : Value :=
  match toDatetimeE v with
  | .ok d => d
  | .error _ => .na

/-- `.dt.year` on one cell: the year of a datetime, missing on `NaT`. -/
def yearOf : Value → Value
  | .date y _ => .num (y : Rat)
  | _ => .na

/-- The type-casting loop of `clean_data` at row level: coerce
`resale_price` and then `floor_area_sqm` to numeric, each only when
that column exists in the frame. -/
def coerceRow (cols : List String) (r : Row) : Row :=
  let r1 := if "resale_price" ∈ cols then mapAtKey "resale_price" toNumeric r else r
  if "floor_area_sqm" ∈ cols then mapAtKey "floor_area_sqm" toNumeric r1 else r1

/-- The full row transform of `clean_data` (before the final `dropna`):
numeric coercion, then — when a `month` column exists — the datetime
re-assignment of `month` and the derivation of `year`. -/
def cleanRowT (cols : List String) (r : Row) : Row :=
  let r1 := coerceRow cols r
  if "month" ∈ cols then
    let d := toDatetimeVal (getVal r1 "month")
    setCol "year" (yearOf d) (setCol "month" d r1)
  else r1

/-- Whether every `month` cell (after the coercion step, which does not
touch it) parses under `pd.to_datetime`; when it does not, `clean_data`
raises out of the `pd.to_datetime` call. -/
def monthsOk (df : Dataset) : Bool :=
  df.rows.all (fun r => exceptOk (toDatetimeE (getVal (coerceRow df.cols r) "month")))

/-- Column list of the cleaned frame: the assignment
`df_clean['year'] = ...` appends a `year` column when `month` is
present and `year` is not already a column. -/
def cleanCols (cols : List String) : List String :=
  if "month" ∈ cols ∧ ¬ ("year" ∈ cols) then cols ++ ["year"] else cols

/-- The `dropna(subset=['resale_price'])` row predicate: the row is
kept exactly when its `resale_price` is not missing. -/
def priceKept (r : Row) : Bool :=
  decide (getVal r "resale_price" ≠ .na)

/-- `clean_data(df)`: `None` passes through; otherwise coerce the two
numeric columns (each if present), parse `month` into a datetime and
derive `year` (if `month` is present; a bad month cell raises), and
finally `dropna(subset=['resale_price'])`, which raises `KeyError`
when the `resale_price` column is absent and otherwise drops exactly
the rows whose `resale_price` is missing. -/
def clean : Option Dataset → Except PyExn (Option Dataset)
  | none => .ok none
  | some df =>
    if "month" ∈ df.cols ∧ ¬ monthsOk df then
      .error (.valueError "month column failed to parse as datetime")
    else if "resale_price" ∈ cleanCols df.cols then
      .ok (some ⟨cleanCols df.cols, (df.rows.map (cleanRowT df.cols)).filter priceKept⟩)
    else
      .error (.keyError "resale_price")

/-- The sampling step of `run_dashboard`: `clean_df.head(k)`, the first
`k` rows in their existing order. -/
def sampleRows (k : Nat) (df : Dataset) : Dataset :=
  ⟨df.cols, df.rows.take k⟩

/-- One row's test under `current_df['town'].isin(selected_towns)`:
true exactly when the `town` cell is one of the selected strings
(missing or non-string cells are never members). -/
def townMem (towns : List String) (r : Row) : Bool :=
  match getVal r "town" with
  | .str t => towns.contains t
  | _ => false

/-- The town-filter branch of `run_dashboard`: an empty selection
leaves the frame untouched; a non-empty selection keeps exactly the
rows whose `town` is selected, raising `KeyError` if the frame has no
`town` column (as the column access would). -/
def townFilter (towns : List String) (df : Dataset) : Except PyExn Dataset :=
  if towns.isEmpty then .ok df
  else if "town" ∈ df.cols then
    .ok ⟨df.cols, df.rows.filter (townMem towns)⟩
  else .error (.keyError "town")

/-- The numeric `year` cells of a frame, in row order — the values that
`filtered_df['year'].min()` / `.max()` aggregate over (NaN skipped). -/
def yearVals (df : Dataset) : List Rat :=
  df.rows.filterMap (fun r =>
    match getVal r "year" with
    | .num q => some q
    | _ => none)

/-- Minimum and maximum of the numeric `year` cells; `none` when there
is no such cell, in which case pandas returns NaN and the subsequent
`int(...)` raises `ValueError`. -/
def yearMinMax (df : Dataset) : Option (Rat × Rat) :=
  match yearVals df with
  | [] => none
  | q :: qs => some (qs.foldl min q, qs.foldl max q)

/-- Python `int()` on a float: truncation toward zero. -/
def pyInt (q : Rat) : Int :=
  if q < 0 then -((-q).floor) else q.floor

/-- Whether `run_dashboard` offers (and hence applies) the year-range
slider: the cleaned frame must have a `year` column and the
sampled-and-town-filtered frame's `int(min) < int(max)`; when the
filtered frame has no year values the `int(NaN)` conversion raises. -/
def yearSliderShown (clean_df : Dataset) (k : Nat) (towns : List String) :
    Except PyExn Bool := do
  let fd ← townFilter towns (sampleRows k clean_df)
  if "year" ∈ clean_df.cols then
    match yearMinMax fd with
    | none => Except.error (.valueError "cannot convert float NaN to integer")
    | some mm => pure (decide (pyInt mm.1 < pyInt mm.2))
  else pure false

/-- One row's test under the year-range mask
`(year >= a) & (year <= b)`: missing or non-numeric years compare
false and are dropped. -/
def yearInRange (a b : Int) (r : Row) : Bool :=
  match getVal r "year" with
  | .num y => decide ((a : Rat) ≤ y ∧ y ≤ (b : Rat))
  | _ => false

/-- The year-range filter applied when the slider is offered. -/
def yearRangeFilter (a b : Int) (df : Dataset) : Dataset :=
  ⟨df.cols, df.rows.filter (yearInRange a b)⟩

/-- Mean of the numeric cells of a column, NaN values skipped as
pandas does; `none` when there is no numeric cell (pandas NaN). -/
def meanCol (c : String) (df : Dataset) : Option Rat :=
  let vs := df.rows.filterMap (fun r =>
    match getVal r c with
    | .num q => some q
    | _ => none)
  if vs.isEmpty then none else some (vs.sum / (vs.length : Rat))

/-- Outcome of one dashboard run past the filters: either the explicit
no-data warning (`st.warning` + `st.stop`), or a rendered view with
its three summary metrics. -/
inductive ViewOutcome where
  | noData
  | render (view : Dataset) (meanPrice meanArea : Option Rat) (count : Nat)
deriving DecidableEq, Repr

/-- The filter/aggregate pipeline of `run_dashboard` (lines 86–124) as
a function of the cleaned frame and the widget parameters: sample the
first `k` rows, apply the town filter, then — when the cleaned frame
has a `year` column — compute the filtered frame's year bounds (an
empty bound raises from `int(NaN)`) and apply the user's year range
`yr` only when the bounds differ; finally the emptiness check selects
the no-data outcome or the rendered metrics. `yr` is the slider
selection, which the UI constrains to lie within the offered bounds. -/
def viewPipeline (clean_df : Dataset) (k : Nat) (towns : List String)
    (yr : Int × Int) : Except PyExn ViewOutcome := do
  let current := sampleRows k clean_df
  let fd ← townFilter towns current
  let fd2 ←
    if "year" ∈ clean_df.cols then
      match yearMinMax fd with
      | none => Except.error (.valueError "cannot convert float NaN to integer")
      | some mm =>
        if pyInt mm.1 < pyInt mm.2 then pure (yearRangeFilter yr.1 yr.2 fd)
        else pure fd
    else pure fd
  if fd2.rows.isEmpty then pure ViewOutcome.noData
  else pure (ViewOutcome.render fd2 (meanCol "resale_price" fd2)
    (meanCol "floor_area_sqm" fd2) fd2.rows.length)

/-- Body of the HTTP response as far as `load_all_data` can tell it
apart: not JSON at all (the `.json()` call raises), JSON without the
`result.records` structure (the subscription raises `KeyError`), or a
well-formed record array. -/
inductive FetchBody where
  | notJson
  | jsonNoRecords
  | records (rs : List Row)
deriving DecidableEq, Repr

/-- What the one `requests.get` can come back as: a transport-level
failure, or an HTTP response with a status code and a body. -/
inductive FetchResponse where
  | netError (msg : String)
  | httpResponse (status : Nat) (body : FetchBody)
deriving DecidableEq, Repr

/-- Result of `load_all_data`: the parsed DataFrame, the handled
failure path (`st.error` + `return None`), or an exception that
escapes the `except requests.exceptions.RequestException` clause. -/
inductive LoadResult where
  | ok (df : Dataset)
  | failed (msg : String)
  | crashed (e : PyExn)
deriving DecidableEq, Repr

/-- `pd.DataFrame(records)`: the column set is the union of the keys
in first-seen order; the rows are kept whole and in order (a key a row
lacks reads as missing). -/
def toDataFrame (rs : List Row) : Dataset :=
  ⟨rs.foldl (fun acc r =>
      acc ++ ((r.map Prod.fst).filter (fun c => decide (c ∉ acc))).dedup) [],
    rs⟩

/-- `load_all_data()` as a function of the modelled response. A network
error and a non-success status (`raise_for_status`) raise
`RequestException` subclasses, and so does a non-JSON body
(`requests.exceptions.JSONDecodeError`, requests ≥ 2.27); all three are
caught and turned into the `st.error` + `None` path. A JSON body
without the `result` / `records` keys raises `KeyError` at the
subscription, which the `except` clause does not catch. -/
def load_all_data (resp : FetchResponse) : LoadResult :=
  match resp with
  | .netError m => .failed ("Error fetching data: " ++ m)
  | .httpResponse status body =>
    if 400 ≤ status then .failed "Error fetching data: HTTPError"
    else
      match body with
      | .notJson => .failed "Error fetching data: JSONDecodeError"
      | .jsonNoRecords => .crashed (.keyError "result")
      | .records rs => .ok (toDataFrame rs)


/-- Decidable equality for `Except` results, so concrete runs of the
modelled functions can be checked by `decide`. -/
instance {ε α : Type} [DecidableEq ε] [DecidableEq α] : DecidableEq (Except ε α) := fun x y =>
  match x, y with
  | .ok a, .ok b =>
    if h : a = b then isTrue (by rw [h]) else isFalse (fun hc => h (by injection hc))
  | .error e, .error f =>
    if h : e = f then isTrue (by rw [h]) else isFalse (fun hc => h (by injection hc))
  | .ok _, .error _ => isFalse (fun hc => Except.noConfusion hc)
  | .error _, .ok _ => isFalse (fun hc => Except.noConfusion hc)

/-! Concrete frames used to instantiate the theorems (shaped like the
data the dashboard actually handles: towns, prices, derived years). -/

/-- A two-town cleaned frame spanning the years 2022 and 2023. -/
def dfTwoTowns : Dataset :=
  ⟨["town", "resale_price", "year"],
    [[("town", Value.str "A"), ("resale_price", Value.num 100000), ("year", Value.num 2022)],
     [("town", Value.str "B"), ("resale_price", Value.num 200000), ("year", Value.num 2023)]]⟩

/-- A one-row cleaned frame with a `year` column. -/
def dfOneRow : Dataset :=
  ⟨["town", "resale_price", "year"],
    [[("town", Value.str "BEDOK"), ("resale_price", Value.num 450000),
      ("year", Value.num 2023)]]⟩

/-- A raw frame whose second row has an unparseable price. -/
def dfRawPrices : Dataset :=
  ⟨["resale_price"],
    [[("resale_price", Value.str "450000")], [("resale_price", Value.str "bad")]]⟩

/-- The cleaned form of `dfRawPrices`: the bad-price row dropped. -/
def dfRawPricesClean : Dataset :=
  ⟨["resale_price"], [[("resale_price", Value.num 450000)]]⟩

/-- A two-town frame for the town-filter instances. -/
def dfTowns : Dataset :=
  ⟨["town", "resale_price"],
    [[("town", Value.str "BEDOK"), ("resale_price", Value.num 450000)],
     [("town", Value.str "TAMPINES"), ("resale_price", Value.num 380000)]]⟩

/-- A frame without a `resale_price` column. -/
def dfNoPrice : Dataset :=
  ⟨["town"], [[("town", Value.str "BEDOK")]]⟩

/-! Lemmas about row lookup and the row-level column operations. -/

theorem rowGet?_append (r s : Row) (c : String) :
    rowGet? (r ++ s) c =
      match rowGet? r c with
      | some v => some v
      | none => rowGet? s c := by
  induction r with
  | nil => rfl
  | cons kv r ih =>
    obtain ⟨k, v⟩ := kv
    by_cases h : k = c <;> simp [rowGet?, h, ih]

theorem rowGet?_mapAtKey (c : String) (f : Value → Value) (r : Row) (d : String) :
    rowGet? (mapAtKey c f r) d =
      if d = c then (rowGet? r d).map f else rowGet? r d := by
  induction r with
  | nil => by_cases h : d = c <;> simp [mapAtKey, rowGet?, h]
  | cons kv r ih =>
    obtain ⟨k, v⟩ := kv
    by_cases hk : k = c
    · subst hk
      simp only [mapAtKey, if_pos rfl]
      by_cases hd : k = d
      · subst hd
        simp [rowGet?]
      · have hdk : ¬ d = k := fun h => hd h.symm
        simp [rowGet?, hd, ih]
    · simp only [mapAtKey, if_neg hk]
      by_cases hd : k = d
      · subst hd
        have hkc : ¬ k = c := hk
        simp [rowGet?, hkc]
      · simp [rowGet?, hd, ih]

theorem rowGet?_eq_none_iff (r : Row) (c : String) :
    rowGet? r c = none ↔ ∀ kv ∈ r, kv.1 ≠ c := by
  induction r with
  | nil => simp [rowGet?]
  | cons kv r ih =>
    obtain ⟨k, v⟩ := kv
    by_cases h : k = c <;> simp [rowGet?, h, ih]

theorem hasKey_iff (r : Row) (c : String) :
    hasKey r c = true ↔ ∃ v, rowGet? r c = some v := by
  unfold hasKey
  cases h : rowGet? r c <;> simp

theorem rowGet?_setCol (c : String) (v : Value) (r : Row) (d : String) :
    rowGet? (setCol c v r) d = if d = c then some v else rowGet? r d := by
  unfold setCol
  by_cases hk : hasKey r c = true
  · rw [if_pos hk, rowGet?_mapAtKey]
    by_cases hd : d = c
    · subst hd
      obtain ⟨w, hw⟩ := (hasKey_iff r d).mp hk
      simp [hw]
    · simp [hd]
  · rw [if_neg hk, rowGet?_append]
    by_cases hd : d = c
    · subst hd
      have hnone : rowGet? r d = none := by
        cases h : rowGet? r d with
        | none => rfl
        | some w => exact absurd ((hasKey_iff r d).mpr ⟨w, h⟩) hk
      simp [hnone, rowGet?]
    · cases h : rowGet? r d with
      | none =>
        simp only [rowGet?]
        rw [if_neg (fun hcd => hd hcd.symm), if_neg hd]
      | some w => rw [if_neg hd]

theorem mem_mapAtKey_ne (c : String) (f : Value → Value) (r : Row) (kv : String × Value)
    (h : kv ∈ mapAtKey c f r) (hne : kv.1 ≠ c) : kv ∈ r := by
  induction r with
  | nil => simp [mapAtKey] at h
  | cons kv0 r ih =>
    obtain ⟨k, v⟩ := kv0
    by_cases hk : k = c
    · rw [mapAtKey, if_pos hk] at h
      rcases List.mem_cons.mp h with h1 | h1
      · exact absurd (by rw [h1]; exact hk) hne
      · exact List.mem_cons_of_mem _ (ih h1)
    · rw [mapAtKey, if_neg hk] at h
      rcases List.mem_cons.mp h with h1 | h1
      · exact h1 ▸ List.mem_cons_self _ _
      · exact List.mem_cons_of_mem _ (ih h1)

theorem mem_mapAtKey_eq (c : String) (f : Value → Value) (r : Row) (kv : String × Value)
    (h : kv ∈ mapAtKey c f r) (heq : kv.1 = c) : ∃ w, kv.2 = f w := by
  induction r with
  | nil => simp [mapAtKey] at h
  | cons kv0 r ih =>
    obtain ⟨k, v⟩ := kv0
    by_cases hk : k = c
    · rw [mapAtKey, if_pos hk] at h
      rcases List.mem_cons.mp h with h1 | h1
      · exact ⟨v, by rw [h1]⟩
      · exact ih h1
    · rw [mapAtKey, if_neg hk] at h
      rcases List.mem_cons.mp h with h1 | h1
      · exact absurd (by rw [h1] at heq; exact heq) hk
      · exact ih h1

theorem mem_setCol_ne (c : String) (v : Value) (r : Row) (kv : String × Value)
    (h : kv ∈ setCol c v r) (hne : kv.1 ≠ c) : kv ∈ r := by
  unfold setCol at h
  by_cases hk : hasKey r c = true
  · rw [if_pos hk] at h
    exact mem_mapAtKey_ne c (fun _ => v) r kv h hne
  · rw [if_neg hk] at h
    rcases List.mem_append.mp h with h1 | h1
    · exact h1
    · simp only [List.mem_singleton] at h1
      exact absurd (h1 ▸ rfl) hne

theorem setCol_bindings (c : String) (v : Value) (r : Row) (kv : String × Value)
    (h : kv ∈ setCol c v r) (heq : kv.1 = c) : kv.2 = v := by
  unfold setCol at h
  by_cases hk : hasKey r c = true
  · rw [if_pos hk] at h
    obtain ⟨w, hw⟩ := mem_mapAtKey_eq c (fun _ => v) r kv h heq
    exact hw
  · rw [if_neg hk] at h
    rcases List.mem_append.mp h with h1 | h1
    · have hnone : rowGet? r c = none := by
        cases hg : rowGet? r c with
        | none => rfl
        | some w => exact absurd ((hasKey_iff r c).mpr ⟨w, hg⟩) hk
      exact absurd heq ((rowGet?_eq_none_iff r c).mp hnone kv h1)
    · simp only [List.mem_singleton] at h1
      rw [h1]

theorem list_map_self {α : Type} (l : List α) (f : α → α) (h : ∀ x ∈ l, f x = x) :
    l.map f = l := by
  induction l with
  | nil => rfl
  | cons a l ih =>
    simp only [List.map_cons, h a (List.mem_cons_self a l),
      ih (fun x hx => h x (List.mem_cons_of_mem a hx))]

theorem mapAtKey_fix (c : String) (f : Value → Value) (r : Row)
    (hall : ∀ kv ∈ r, kv.1 = c → f kv.2 = kv.2) :
    mapAtKey c f r = r := by
  induction r with
  | nil => rfl
  | cons kv r ih =>
    obtain ⟨k, w⟩ := kv
    rw [mapAtKey]
    by_cases h0 : k = c
    · rw [if_pos h0, hall (k, w) (List.mem_cons_self _ _) h0,
        ih (fun x hx hc => hall x (List.mem_cons_of_mem _ hx) hc)]
    · rw [if_neg h0, ih (fun x hx hc => hall x (List.mem_cons_of_mem _ hx) hc)]

theorem setCol_fix (c : String) (v : Value) (r : Row)
    (hall : ∀ kv ∈ r, kv.1 = c → kv.2 = v) (hk : hasKey r c = true) :
    setCol c v r = r := by
  unfold setCol
  rw [if_pos hk]
  exact mapAtKey_fix c (fun _ => v) r (fun kv hkv hc => (hall kv hkv hc).symm)

/-! Lemmas about the cell transforms. -/

theorem toNumeric_num_or_na (v : Value) :
    toNumeric v = .na ∨ ∃ q, toNumeric v = .num q := by
  cases v with
  | str s =>
    cases h : parseNumeric s with
    | none => exact Or.inl (by simp [toNumeric, h])
    | some q => exact Or.inr ⟨q, by simp [toNumeric, h]⟩
  | num q => exact Or.inr ⟨q, rfl⟩
  | date y m => exact Or.inl rfl
  | na => exact Or.inl rfl

theorem toNumeric_idem (v : Value) : toNumeric (toNumeric v) = toNumeric v := by
  rcases toNumeric_num_or_na v with h | ⟨q, h⟩ <;> rw [h] <;> rfl

theorem toDatetimeVal_date_or_na (v : Value) :
    toDatetimeVal v = .na ∨ ∃ y m, toDatetimeVal v = .date y m := by
  cases v with
  | str s =>
    cases h : parseMonth s with
    | none => exact Or.inl (by simp [toDatetimeVal, toDatetimeE, h])
    | some ym => exact Or.inr ⟨ym.1, ym.2, by simp [toDatetimeVal, toDatetimeE, h]⟩
  | num q => exact Or.inr ⟨epochYear q, 1, rfl⟩
  | date y m => exact Or.inr ⟨y, m, rfl⟩
  | na => exact Or.inl rfl

theorem toDatetimeE_of_val (v : Value) :
    toDatetimeE (toDatetimeVal v) = .ok (toDatetimeVal v) := by
  rcases toDatetimeVal_date_or_na v with h | ⟨y, m, h⟩ <;> rw [h] <;> rfl

theorem toDatetimeVal_idem (v : Value) :
    toDatetimeVal (toDatetimeVal v) = toDatetimeVal v := by
  rcases toDatetimeVal_date_or_na v with h | ⟨y, m, h⟩ <;> rw [h] <;> rfl

theorem exceptOk_toDatetimeE_of_val (v : Value) :
    exceptOk (toDatetimeE (toDatetimeVal v)) = true := by
  rw [toDatetimeE_of_val]
  rfl

/-! Lemmas about the row transform of the cleaner. -/

theorem rowGet?_coerceRow_ne (cols : List String) (r : Row) (c : String)
    (hp : c ≠ "resale_price") (ha : c ≠ "floor_area_sqm") :
    rowGet? (coerceRow cols r) c = rowGet? r c := by
  unfold coerceRow
  by_cases h1 : "resale_price" ∈ cols <;> by_cases h2 : "floor_area_sqm" ∈ cols <;>
    simp [h1, h2, rowGet?_mapAtKey, hp, ha]

theorem getVal_coerceRow_price (cols : List String) (r : Row)
    (h : "resale_price" ∈ cols) :
    getVal (coerceRow cols r) "resale_price" = toNumeric (getVal r "resale_price") := by
  unfold coerceRow
  rw [if_pos h]
  have hne : ("resale_price" : String) ≠ "floor_area_sqm" := by decide
  by_cases h2 : "floor_area_sqm" ∈ cols
  · rw [if_pos h2]
    unfold getVal
    rw [rowGet?_mapAtKey, if_neg hne, rowGet?_mapAtKey, if_pos rfl]
    cases rowGet? r "resale_price" <;> rfl
  · rw [if_neg h2]
    unfold getVal
    rw [rowGet?_mapAtKey, if_pos rfl]
    cases rowGet? r "resale_price" <;> rfl

theorem getVal_coerceRow_area (cols : List String) (r : Row)
    (h : "floor_area_sqm" ∈ cols) :
    getVal (coerceRow cols r) "floor_area_sqm" = toNumeric (getVal r "floor_area_sqm") := by
  unfold coerceRow
  have hne : ("floor_area_sqm" : String) ≠ "resale_price" := by decide
  by_cases h1 : "resale_price" ∈ cols
  · rw [if_pos h1, if_pos h]
    unfold getVal
    rw [rowGet?_mapAtKey, if_pos rfl, rowGet?_mapAtKey, if_neg hne]
    cases rowGet? r "floor_area_sqm" <;> rfl
  · rw [if_neg h1, if_pos h]
    unfold getVal
    rw [rowGet?_mapAtKey, if_pos rfl]
    cases rowGet? r "floor_area_sqm" <;> rfl

theorem rowGet?_cleanRowT_ne (cols : List String) (r : Row) (c : String)
    (hp : c ≠ "resale_price") (ha : c ≠ "floor_area_sqm")
    (hm : c ≠ "month") (hy : c ≠ "year") :
    rowGet? (cleanRowT cols r) c = rowGet? r c := by
  unfold cleanRowT
  by_cases h : "month" ∈ cols
  · rw [if_pos h, rowGet?_setCol, if_neg hy, rowGet?_setCol, if_neg hm,
      rowGet?_coerceRow_ne cols r c hp ha]
  · rw [if_neg h, rowGet?_coerceRow_ne cols r c hp ha]

theorem getVal_cleanRowT_price (cols : List String) (r : Row)
    (h : "resale_price" ∈ cols) :
    getVal (cleanRowT cols r) "resale_price" = toNumeric (getVal r "resale_price") := by
  unfold cleanRowT
  by_cases hm : "month" ∈ cols
  · rw [if_pos hm]
    unfold getVal
    rw [rowGet?_setCol, if_neg (by decide : ("resale_price" : String) ≠ "year"),
      rowGet?_setCol, if_neg (by decide : ("resale_price" : String) ≠ "month")]
    have := getVal_coerceRow_price cols r h
    unfold getVal at this
    exact this
  · rw [if_neg hm]
    exact getVal_coerceRow_price cols r h

theorem getVal_cleanRowT_area (cols : List String) (r : Row)
    (h : "floor_area_sqm" ∈ cols) :
    getVal (cleanRowT cols r) "floor_area_sqm" = toNumeric (getVal r "floor_area_sqm") := by
  unfold cleanRowT
  by_cases hm : "month" ∈ cols
  · rw [if_pos hm]
    unfold getVal
    rw [rowGet?_setCol, if_neg (by decide : ("floor_area_sqm" : String) ≠ "year"),
      rowGet?_setCol, if_neg (by decide : ("floor_area_sqm" : String) ≠ "month")]
    have := getVal_coerceRow_area cols r h
    unfold getVal at this
    exact this
  · rw [if_neg hm]
    exact getVal_coerceRow_area cols r h

theorem getVal_cleanRowT_month (cols : List String) (r : Row)
    (h : "month" ∈ cols) :
    getVal (cleanRowT cols r) "month" =
      toDatetimeVal (getVal (coerceRow cols r) "month") := by
  unfold cleanRowT
  rw [if_pos h]
  unfold getVal
  rw [rowGet?_setCol, if_neg (by decide : ("month" : String) ≠ "year"),
    rowGet?_setCol, if_pos rfl]

theorem getVal_cleanRowT_year (cols : List String) (r : Row)
    (h : "month" ∈ cols) :
    getVal (cleanRowT cols r) "year" =
      yearOf (toDatetimeVal (getVal (coerceRow cols r) "month")) := by
  unfold cleanRowT
  rw [if_pos h]
  unfold getVal
  rw [rowGet?_setCol, if_pos rfl]

theorem mem_cleanCols (cols : List String) (c : String) (h : c ≠ "year") :
    c ∈ cleanCols cols ↔ c ∈ cols := by
  unfold cleanCols
  by_cases hm : "month" ∈ cols ∧ ¬ ("year" ∈ cols)
  · rw [if_pos hm]
    simp [h]
  · rw [if_neg hm]

theorem price_binding_fixed (cols : List String) (r : Row) (kv : String × Value)
    (h : kv ∈ cleanRowT cols r) (heq : kv.1 = "resale_price")
    (hc : "resale_price" ∈ cols) : toNumeric kv.2 = kv.2 := by
  have hr1 : kv ∈ coerceRow cols r := by
    unfold cleanRowT at h
    by_cases hm : "month" ∈ cols
    · rw [if_pos hm] at h
      exact mem_setCol_ne _ _ _ kv
        (mem_setCol_ne _ _ _ kv h (heq ▸ (by decide : ("resale_price" : String) ≠ "year")))
        (heq ▸ (by decide : ("resale_price" : String) ≠ "month"))
    · rwa [if_neg hm] at h
  unfold coerceRow at hr1
  rw [if_pos hc] at hr1
  have hr2 : kv ∈ mapAtKey "resale_price" toNumeric r := by
    by_cases h2 : "floor_area_sqm" ∈ cols
    · rw [if_pos h2] at hr1
      exact mem_mapAtKey_ne _ _ _ kv hr1
        (heq ▸ (by decide : ("resale_price" : String) ≠ "floor_area_sqm"))
    · rwa [if_neg h2] at hr1
  obtain ⟨w, hw⟩ := mem_mapAtKey_eq _ _ _ kv hr2 heq
  rw [hw, toNumeric_idem]

theorem area_binding_fixed (cols : List String) (r : Row) (kv : String × Value)
    (h : kv ∈ cleanRowT cols r) (heq : kv.1 = "floor_area_sqm")
    (hc : "floor_area_sqm" ∈ cols) : toNumeric kv.2 = kv.2 := by
  have hr1 : kv ∈ coerceRow cols r := by
    unfold cleanRowT at h
    by_cases hm : "month" ∈ cols
    · rw [if_pos hm] at h
      exact mem_setCol_ne _ _ _ kv
        (mem_setCol_ne _ _ _ kv h (heq ▸ (by decide : ("floor_area_sqm" : String) ≠ "year")))
        (heq ▸ (by decide : ("floor_area_sqm" : String) ≠ "month"))
    · rwa [if_neg hm] at h
  unfold coerceRow at hr1
  rw [if_pos hc] at hr1
  obtain ⟨w, hw⟩ := mem_mapAtKey_eq _ _ _ kv hr1 heq
  rw [hw, toNumeric_idem]

theorem rowGet?_cleanRowT_month (cols : List String) (r : Row) (h : "month" ∈ cols) :
    rowGet? (cleanRowT cols r) "month" =
      some (toDatetimeVal (getVal (coerceRow cols r) "month")) := by
  unfold cleanRowT
  rw [if_pos h, rowGet?_setCol, if_neg (by decide : ("month" : String) ≠ "year"),
    rowGet?_setCol, if_pos rfl]

theorem rowGet?_cleanRowT_year (cols : List String) (r : Row) (h : "month" ∈ cols) :
    rowGet? (cleanRowT cols r) "year" =
      some (yearOf (toDatetimeVal (getVal (coerceRow cols r) "month"))) := by
  unfold cleanRowT
  rw [if_pos h, rowGet?_setCol, if_pos rfl]

theorem month_bindings_cleanRowT (cols : List String) (r : Row) (h : "month" ∈ cols) :
    ∀ kv ∈ cleanRowT cols r, kv.1 = "month" →
      kv.2 = toDatetimeVal (getVal (coerceRow cols r) "month") := by
  intro kv hkv heq
  unfold cleanRowT at hkv
  rw [if_pos h] at hkv
  have h2 := mem_setCol_ne _ _ _ kv hkv (heq ▸ (by decide : ("month" : String) ≠ "year"))
  exact setCol_bindings _ _ _ kv h2 heq

theorem year_bindings_cleanRowT (cols : List String) (r : Row) (h : "month" ∈ cols) :
    ∀ kv ∈ cleanRowT cols r, kv.1 = "year" →
      kv.2 = yearOf (toDatetimeVal (getVal (coerceRow cols r) "month")) := by
  intro kv hkv heq
  unfold cleanRowT at hkv
  rw [if_pos h] at hkv
  exact setCol_bindings _ _ _ kv hkv heq

theorem coerceRow_cleanRowT_fix (cols : List String) (r : Row) (cols' : List String)
    (hp : "resale_price" ∈ cols' → "resale_price" ∈ cols)
    (ha : "floor_area_sqm" ∈ cols' → "floor_area_sqm" ∈ cols) :
    coerceRow cols' (cleanRowT cols r) = cleanRowT cols r := by
  unfold coerceRow
  by_cases h1 : "resale_price" ∈ cols'
  · rw [if_pos h1, mapAtKey_fix _ _ _
      (fun kv hkv heq => price_binding_fixed cols r kv hkv heq (hp h1))]
    by_cases h2 : "floor_area_sqm" ∈ cols'
    · rw [if_pos h2, mapAtKey_fix _ _ _
        (fun kv hkv heq => area_binding_fixed cols r kv hkv heq (ha h2))]
    · rw [if_neg h2]
  · rw [if_neg h1]
    by_cases h2 : "floor_area_sqm" ∈ cols'
    · rw [if_pos h2, mapAtKey_fix _ _ _
        (fun kv hkv heq => area_binding_fixed cols r kv hkv heq (ha h2))]
    · rw [if_neg h2]

theorem cleanRowT_of_fix (cols' : List String) (t : Row) (d : Value)
    (hco : coerceRow cols' t = t)
    (hm2 : "month" ∈ cols')
    (hgm : rowGet? t "month" = some d)
    (hdd : toDatetimeVal d = d)
    (hbm : ∀ kv ∈ t, kv.1 = "month" → kv.2 = d)
    (hgy : rowGet? t "year" = some (yearOf d))
    (hby : ∀ kv ∈ t, kv.1 = "year" → kv.2 = yearOf d) :
    cleanRowT cols' t = t := by
  unfold cleanRowT
  rw [hco, if_pos hm2]
  have hgetm : getVal t "month" = d := by unfold getVal; rw [hgm]
  rw [hgetm, hdd]
  show setCol "year" (yearOf d) (setCol "month" d t) = t
  rw [setCol_fix "month" d t hbm ((hasKey_iff t "month").mpr ⟨d, hgm⟩),
    setCol_fix "year" (yearOf d) t hby ((hasKey_iff t "year").mpr ⟨yearOf d, hgy⟩)]

theorem cleanRowT_no_month (cols' : List String) (t : Row)
    (hco : coerceRow cols' t = t) (hm2 : "month" ∉ cols') :
    cleanRowT cols' t = t := by
  unfold cleanRowT
  rw [if_neg hm2, hco]

theorem cleanRowT_idem (cols : List String) (r : Row) :
    cleanRowT (cleanCols cols) (cleanRowT cols r) = cleanRowT cols r := by
  have hp := (mem_cleanCols cols "resale_price" (by decide)).mp
  have ha := (mem_cleanCols cols "floor_area_sqm" (by decide)).mp
  have hco := coerceRow_cleanRowT_fix cols r (cleanCols cols) hp ha
  by_cases hm : "month" ∈ cols
  · exact cleanRowT_of_fix (cleanCols cols) (cleanRowT cols r)
      (toDatetimeVal (getVal (coerceRow cols r) "month")) hco
      ((mem_cleanCols cols "month" (by decide)).mpr hm)
      (rowGet?_cleanRowT_month cols r hm)
      (toDatetimeVal_idem _)
      (month_bindings_cleanRowT cols r hm)
      (rowGet?_cleanRowT_year cols r hm)
      (year_bindings_cleanRowT cols r hm)
  · exact cleanRowT_no_month _ _ hco
      (fun h2 => hm ((mem_cleanCols cols "month" (by decide)).mp h2))

theorem cleanCols_idem (cols : List String) :
    cleanCols (cleanCols cols) = cleanCols cols := by
  by_cases h : "month" ∈ cols ∧ ¬ ("year" ∈ cols)
  · unfold cleanCols
    rw [if_pos h, if_neg]
    intro h2
    exact h2.2 (List.mem_append.mpr (Or.inr (List.mem_singleton.mpr rfl)))
  · unfold cleanCols
    rw [if_neg h, if_neg h]

theorem clean_some_ok (df out : Dataset) (h : clean (some df) = .ok (some out)) :
    out = ⟨cleanCols df.cols, (df.rows.map (cleanRowT df.cols)).filter priceKept⟩ ∧
    "resale_price" ∈ df.cols ∧
    ("month" ∈ df.cols → monthsOk df = true) := by
  simp only [clean] at h
  by_cases h1 : "month" ∈ df.cols ∧ ¬ monthsOk df
  · rw [if_pos h1] at h
    exact absurd h (by simp)
  · rw [if_neg h1] at h
    by_cases h2 : "resale_price" ∈ cleanCols df.cols
    · rw [if_pos h2] at h
      injection h with h3
      injection h3 with h4
      refine ⟨h4.symm, (mem_cleanCols df.cols "resale_price" (by decide)).mp h2, ?_⟩
      intro hm
      by_contra hno
      exact h1 ⟨hm, by simpa using hno⟩
    · rw [if_neg h2] at h
      exact absurd h (by simp)


theorem monthsOk_of_clean (df : Dataset) (hm : "month" ∈ df.cols) :
    monthsOk ⟨cleanCols df.cols,
      (df.rows.map (cleanRowT df.cols)).filter priceKept⟩ = true := by
  unfold monthsOk
  rw [List.all_eq_true]
  intro t ht
  obtain ⟨r, hr, hrt⟩ := List.mem_map.mp (List.mem_of_mem_filter ht)
  have hfix := coerceRow_cleanRowT_fix df.cols r (cleanCols df.cols)
    ((mem_cleanCols df.cols "resale_price" (by decide)).mp)
    ((mem_cleanCols df.cols "floor_area_sqm" (by decide)).mp)
  rw [← hrt]
  show exceptOk (toDatetimeE
    (getVal (coerceRow (cleanCols df.cols) (cleanRowT df.cols r)) "month")) = true
  rw [hfix, getVal_cleanRowT_month df.cols r hm]
  exact exceptOk_toDatetimeE_of_val _

theorem clean_ok_fix (df out : Dataset) (h : clean (some df) = .ok (some out)) :
    clean (some out) = .ok (some out) := by
  obtain ⟨hout, hp, _⟩ := clean_some_ok df out h
  subst hout
  simp only [clean]
  have hguard : ¬ ("month" ∈ cleanCols df.cols ∧
      ¬ monthsOk ⟨cleanCols df.cols,
        (df.rows.map (cleanRowT df.cols)).filter priceKept⟩ = true) := by
    rintro ⟨hmem, hno⟩
    exact hno (monthsOk_of_clean df ((mem_cleanCols df.cols "month" (by decide)).mp hmem))
  rw [if_neg hguard]
  have hp2 : "resale_price" ∈ cleanCols (cleanCols df.cols) := by
    rw [cleanCols_idem]
    exact (mem_cleanCols df.cols "resale_price" (by decide)).mpr hp
  rw [if_pos hp2]
  have hrowsmap : ((df.rows.map (cleanRowT df.cols)).filter priceKept).map
      (cleanRowT (cleanCols df.cols)) =
      (df.rows.map (cleanRowT df.cols)).filter priceKept := by
    apply list_map_self
    intro t ht
    obtain ⟨r, hr, hrt⟩ := List.mem_map.mp (List.mem_of_mem_filter ht)
    rw [← hrt]
    exact cleanRowT_idem df.cols r
  have hrowsfilter : ((df.rows.map (cleanRowT df.cols)).filter priceKept).filter
      priceKept = (df.rows.map (cleanRowT df.cols)).filter priceKept := by
    apply List.filter_eq_self.mpr
    intro t ht
    exact List.of_mem_filter ht
  rw [cleanCols_idem, hrowsmap, hrowsfilter]

theorem clean_none_or_some (x : Option Dataset) (out : Option Dataset)
    (h : clean x = .ok out) : clean out = .ok out := by
  cases x with
  | none =>
    simp only [clean] at h
    injection h with h1
    rw [← h1]
    rfl
  | some df =>
    cases out with
    | none =>
      exfalso
      simp only [clean] at h
      by_cases h1 : "month" ∈ df.cols ∧ ¬ monthsOk df
      · rw [if_pos h1] at h
        simp at h
      · rw [if_neg h1] at h
        by_cases h2 : "resale_price" ∈ cleanCols df.cols
        · rw [if_pos h2] at h
          simp at h
        · rw [if_neg h2] at h
          simp at h
    | some outd => exact clean_ok_fix df outd h


/-! Lemmas for the year-slider decision. -/

theorem foldl_min_le_foldl_max (l : List Rat) (a b : Rat) (h : a <= b) :
    l.foldl min a <= l.foldl max b := by
  induction l generalizing a b with
  | nil => exact h
  | cons x l ih =>
    exact ih (min a x) (max b x)
      (le_trans (min_le_left a x) (le_trans h (le_max_left b x)))

theorem yearMinMax_le (df : Dataset) (mn mx : Rat)
    (h : yearMinMax df = some (mn, mx)) : mn <= mx := by
  unfold yearMinMax at h
  cases hv : yearVals df with
  | nil => rw [hv] at h; exact absurd h (by simp)
  | cons q qs =>
    rw [hv] at h
    injection h with h1
    injection h1 with ha hb
    rw [<- ha, <- hb]
    exact foldl_min_le_foldl_max qs q q le_rfl

theorem ratFloor_mono (a b : Rat) (h : a <= b) : a.floor <= b.floor :=
  Rat.le_floor.mpr (le_trans (Rat.le_floor.mp (le_refl a.floor)) h)

theorem pyInt_mono (a b : Rat) (h : a <= b) : pyInt a <= pyInt b := by
  unfold pyInt
  by_cases ha : a < 0
  · rw [if_pos ha]
    by_cases hb : b < 0
    · rw [if_pos hb]
      have : (-b).floor <= (-a).floor := ratFloor_mono _ _ (by linarith)
      omega
    · rw [if_neg hb]
      have h1 : (0 : Int) <= (-a).floor := Rat.le_floor.mpr (by push_cast; linarith)
      have h2 : (0 : Int) <= b.floor := Rat.le_floor.mpr (by push_cast; linarith)
      omega
  · rw [if_neg ha]
    have hb : ¬ b < 0 := by linarith
    rw [if_neg hb]
    exact ratFloor_mono a b h

theorem yearSliderShown_eq (clean_df : Dataset) (k : Nat) (towns : List String)
    (fd : Dataset) (hf : townFilter towns (sampleRows k clean_df) = .ok fd) :
    yearSliderShown clean_df k towns =
      if "year" ∈ clean_df.cols then
        match yearMinMax fd with
        | none => Except.error (.valueError "cannot convert float NaN to integer")
        | some mm => Except.ok (decide (pyInt mm.1 < pyInt mm.2))
      else .ok false := by
  unfold yearSliderShown
  rw [hf]
  rfl

/-! The claim theorems. -/

/-- C4: every row of `clean(dataset)` has a non-missing numeric
`resale_price`, and the `dropna` on the coerced `resale_price` is the
only row-dropping step: the cleaned rows are exactly the transformed
input rows filtered by that one predicate. -/
theorem clean_price_nonmissing (df out : Dataset)
    (h : clean (some df) = .ok (some out)) :
    (∀ r ∈ out.rows, ∃ q : Rat, getVal r "resale_price" = .num q) ∧
    out.rows = (df.rows.map (cleanRowT df.cols)).filter priceKept := by
  obtain ⟨hout, hp, _⟩ := clean_some_ok df out h
  subst hout
  refine ⟨?_, rfl⟩
  intro r hr
  have hkept := List.of_mem_filter hr
  obtain ⟨r0, hr0, hrt⟩ := List.mem_map.mp (List.mem_of_mem_filter hr)
  have hval : getVal r "resale_price" = toNumeric (getVal r0 "resale_price") := by
    rw [<- hrt]
    exact getVal_cleanRowT_price df.cols r0 hp
  rcases toNumeric_num_or_na (getVal r0 "resale_price") with hna | ⟨q, hq⟩
  · exact absurd (hval.trans hna) (of_decide_eq_true hkept)
  · exact ⟨q, hval.trans hq⟩

theorem clean_price_nonmissing_witness :
    clean (some dfRawPrices) = .ok (some dfRawPricesClean) ∧
    ((∀ r ∈ dfRawPricesClean.rows, ∃ q : Rat, getVal r "resale_price" = .num q) ∧
     dfRawPricesClean.rows =
       (dfRawPrices.rows.map (cleanRowT dfRawPrices.cols)).filter priceKept) :=
  ⟨by decide, clean_price_nonmissing dfRawPrices dfRawPricesClean (by decide)⟩

/-- C5: `clean` is idempotent — running the cleaner on its own output
is the same computation as running it once (`clean(clean(x)) ==
clean(x)`, with a raising first run propagating unchanged). -/
theorem clean_idempotent (x : Option Dataset) :
    Except.bind (clean x) clean = clean x := by
  cases hc : clean x with
  | error e => rfl
  | ok out =>
    show clean out = .ok out
    exact clean_none_or_some x out hc

/-- C6: per cell, `clean` parses valid numeric strings of the two
numeric columns to their numeric value and coerces unparseable strings
to missing without raising; a transformed row is then dropped exactly
when its missing field is `resale_price` (a missing area keeps the
row). -/
theorem coercion_cellwise :
    (∀ (s : String) (q : Rat), parseNumeric s = some q → toNumeric (.str s) = .num q) ∧
    (∀ s : String, parseNumeric s = none → toNumeric (.str s) = .na) ∧
    (∀ (cols : List String) (r : Row), "resale_price" ∈ cols →
       getVal (cleanRowT cols r) "resale_price" = toNumeric (getVal r "resale_price")) ∧
    (∀ (cols : List String) (r : Row), "floor_area_sqm" ∈ cols →
       getVal (cleanRowT cols r) "floor_area_sqm" = toNumeric (getVal r "floor_area_sqm")) ∧
    (∀ (df out : Dataset) (r : Row), clean (some df) = .ok (some out) → r ∈ df.rows →
       (cleanRowT df.cols r ∈ out.rows ↔
        getVal (cleanRowT df.cols r) "resale_price" ≠ .na)) := by
  refine ⟨fun s q h => by simp [toNumeric, h], fun s h => by simp [toNumeric, h],
    fun cols r h => getVal_cleanRowT_price cols r h,
    fun cols r h => getVal_cleanRowT_area cols r h, ?_⟩
  intro df out r h hr
  obtain ⟨hout, hp, _⟩ := clean_some_ok df out h
  subst hout
  constructor
  · intro hmem
    have hmem2 : cleanRowT df.cols r ∈
        (df.rows.map (cleanRowT df.cols)).filter priceKept := hmem
    have hk : priceKept (cleanRowT df.cols r) = true := List.of_mem_filter hmem2
    unfold priceKept at hk
    exact of_decide_eq_true hk
  · intro hne
    have hk : priceKept (cleanRowT df.cols r) = true := by
      unfold priceKept
      exact decide_eq_true hne
    exact List.mem_filter.mpr ⟨List.mem_map.mpr ⟨r, hr, rfl⟩, hk⟩

theorem coercion_cellwise_witness :
    toNumeric (.str "450000") = .num 450000 :=
  coercion_cellwise.1 "450000" 450000 (by decide)

/-- C10: on a non-null frame without a `resale_price` column, `clean`
never returns a dataset — the unconditional `dropna` raises `KeyError`
on the absent column (once the month cells, whose parsing runs first,
are fine), even though the coercion and month steps skip absent
columns. -/
theorem clean_missing_price_column (df : Dataset) (h : "resale_price" ∉ df.cols) :
    (∀ d : Option Dataset, clean (some df) ≠ .ok d) ∧
    (("month" ∈ df.cols → monthsOk df = true) →
      clean (some df) = .error (.keyError "resale_price")) := by
  have hp2 : "resale_price" ∉ cleanCols df.cols :=
    fun hmem => h ((mem_cleanCols df.cols "resale_price" (by decide)).mp hmem)
  constructor
  · intro d hd
    simp only [clean] at hd
    by_cases h1 : "month" ∈ df.cols ∧ ¬ monthsOk df
    · rw [if_pos h1] at hd
      simp at hd
    · rw [if_neg h1, if_neg hp2] at hd
      simp at hd
  · intro hmok
    have h1 : ¬ ("month" ∈ df.cols ∧ ¬ monthsOk df = true) := fun hc => hc.2 (hmok hc.1)
    simp only [clean]
    rw [if_neg h1, if_neg hp2]

theorem clean_missing_price_column_witness :
    clean (some dfNoPrice) = .error (.keyError "resale_price") :=
  (clean_missing_price_column dfNoPrice (by decide)).2 (fun hm => absurd hm (by decide))

/-- C7: the town filter with an empty selection returns the sampled
frame unchanged; with a non-empty selection it returns exactly the
rows whose `town` is a selected member — every kept row has a selected
town and no row failing the membership test survives. -/
theorem town_filter_semantics (towns : List String) (df : Dataset) :
    (towns = [] → townFilter towns df = .ok df) ∧
    (towns ≠ [] → "town" ∈ df.cols →
      townFilter towns df = .ok ⟨df.cols, df.rows.filter (townMem towns)⟩ ∧
      (∀ r ∈ df.rows.filter (townMem towns),
         ∃ t, getVal r "town" = .str t ∧ t ∈ towns) ∧
      (∀ r ∈ df.rows, townMem towns r = false →
         r ∉ df.rows.filter (townMem towns))) := by
  constructor
  · intro h
    subst h
    rfl
  · intro hne hcol
    refine ⟨?_, ?_, ?_⟩
    · cases towns with
      | nil => exact absurd rfl hne
      | cons a ts => simp [townFilter, hcol]
    · intro r hr
      have hm := List.of_mem_filter hr
      unfold townMem at hm
      cases hv : getVal r "town" with
      | str t =>
        rw [hv] at hm
        simp at hm
        exact ⟨t, rfl, hm⟩
      | num q => rw [hv] at hm; simp at hm
      | date y m => rw [hv] at hm; simp at hm
      | na => rw [hv] at hm; simp at hm
    · intro r _ hfalse hmem
      have hm := List.of_mem_filter hmem
      rw [hfalse] at hm
      exact absurd hm (by simp)

theorem town_filter_semantics_witness :
    townFilter ["BEDOK"] dfTowns =
      .ok ⟨dfTowns.cols, dfTowns.rows.filter (townMem ["BEDOK"])⟩ :=
  ((town_filter_semantics ["BEDOK"] dfTowns).2 (by decide) (by decide)).1

/-- C8: with `k` at most the row count, the sampling step
`clean_df.head(k)` yields a frame with exactly `k` rows that agree
position by position with the first `k` rows of the cleaned frame, its
columns untouched. -/
theorem sampling_first_k (k : Nat) (df : Dataset) (h : k ≤ df.rows.length) :
    (sampleRows k df).rows.length = k ∧
    (∀ i : Nat, i < k → (sampleRows k df).rows[i]? = df.rows[i]?) ∧
    (sampleRows k df).cols = df.cols := by
  refine ⟨?_, ?_, rfl⟩
  · show (df.rows.take k).length = k
    rw [List.length_take]
    omega
  · intro i hi
    show (df.rows.take k)[i]? = df.rows[i]?
    rw [List.getElem?_take]
    rw [if_pos hi]

theorem sampling_first_k_witness :
    (sampleRows 1 dfTowns).rows.length = 1 ∧
    (∀ i : Nat, i < 1 → (sampleRows 1 dfTowns).rows[i]? = dfTowns.rows[i]?) ∧
    (sampleRows 1 dfTowns).cols = dfTowns.cols :=
  sampling_first_k 1 dfTowns (by decide)

/-- C9: fields other than `resale_price`, `floor_area_sqm`, `month`
and the derived `year` are looked up unchanged through the cleaner row
transform; the cleaned frame only ever appends a `year` column and its
rows are transformed input rows; and the sampling, town and year
filters only select rows (columns and surviving rows untouched). -/
theorem passthrough_preserved :
    (∀ (cols : List String) (r : Row) (c : String),
       c ≠ "resale_price" → c ≠ "floor_area_sqm" → c ≠ "month" → c ≠ "year" →
       rowGet? (cleanRowT cols r) c = rowGet? r c) ∧
    (∀ df out : Dataset, clean (some df) = .ok (some out) →
       (out.cols = df.cols ∨ out.cols = df.cols ++ ["year"]) ∧
       ∀ r ∈ out.rows, ∃ r0 ∈ df.rows, r = cleanRowT df.cols r0) ∧
    (∀ (k : Nat) (df : Dataset), (sampleRows k df).cols = df.cols ∧
       ∀ r ∈ (sampleRows k df).rows, r ∈ df.rows) ∧
    (∀ (towns : List String) (df out : Dataset), townFilter towns df = .ok out →
       out.cols = df.cols ∧ ∀ r ∈ out.rows, r ∈ df.rows) ∧
    (∀ (a b : Int) (df : Dataset), (yearRangeFilter a b df).cols = df.cols ∧
       ∀ r ∈ (yearRangeFilter a b df).rows, r ∈ df.rows) := by
  refine ⟨fun cols r c hp ha hm hy => rowGet?_cleanRowT_ne cols r c hp ha hm hy,
    ?_, ?_, ?_, ?_⟩
  · intro df out h
    obtain ⟨hout, _, _⟩ := clean_some_ok df out h
    subst hout
    constructor
    · show cleanCols df.cols = df.cols ∨ cleanCols df.cols = df.cols ++ ["year"]
      unfold cleanCols
      by_cases hc : "month" ∈ df.cols ∧ ¬ ("year" ∈ df.cols)
      · rw [if_pos hc]
        exact Or.inr rfl
      · rw [if_neg hc]
        exact Or.inl rfl
    · intro r hr
      obtain ⟨r0, hr0, hrt⟩ := List.mem_map.mp (List.mem_of_mem_filter hr)
      exact ⟨r0, hr0, hrt.symm⟩
  · intro k df
    exact ⟨rfl, fun r hr => List.take_subset _ _ hr⟩
  · intro towns df out h
    unfold townFilter at h
    by_cases he : towns.isEmpty = true
    · rw [if_pos he] at h
      injection h with h1
      rw [<- h1]
      exact ⟨rfl, fun r hr => hr⟩
    · rw [if_neg he] at h
      by_cases hc : "town" ∈ df.cols
      · rw [if_pos hc] at h
        injection h with h1
        rw [<- h1]
        exact ⟨rfl, fun r hr => List.mem_of_mem_filter hr⟩
      · rw [if_neg hc] at h
        exact absurd h (by simp)
  · intro a b df
    exact ⟨rfl, fun r hr => List.mem_of_mem_filter hr⟩

theorem passthrough_preserved_witness :
    rowGet? (cleanRowT ["resale_price", "block"]
      [("resale_price", Value.str "450000"), ("block", Value.str "10A")]) "block" =
    rowGet? [("resale_price", Value.str "450000"), ("block", Value.str "10A")] "block" :=
  passthrough_preserved.1 ["resale_price", "block"]
    [("resale_price", Value.str "450000"), ("block", Value.str "10A")] "block"
    (by decide) (by decide) (by decide) (by decide)

/-- C1 (counterexample): the cleaned two-town frame spans 2022–2023,
yet with the town selection restricted to town "B" the year-range
control is skipped — the skip condition is not a function of the
cleaned frame's year span. -/
theorem year_control_cex :
    yearSliderShown dfTwoTowns 2 ["B"] = .ok false ∧
    "year" ∈ dfTwoTowns.cols ∧
    yearMinMax dfTwoTowns = some (2022, 2023) ∧
    (2022 : Rat) ≠ 2023 := by
  refine ⟨by rfl, by decide, by rfl, by decide⟩

/-- C1 (amended): the year-range control exists iff the cleaned frame
has a `year` column and the sampled-and-town-filtered frame's year
bounds differ (as Python ints); with no `year` column it is never
offered. The decision is a function of the filtered frame's year span,
not of the cleaned frame's. -/
theorem year_control_decision :
    (∀ (cleanDf : Dataset) (k : Nat) (towns : List String) (fd : Dataset),
       townFilter towns (sampleRows k cleanDf) = .ok fd →
       "year" ∉ cleanDf.cols → yearSliderShown cleanDf k towns = .ok false) ∧
    (∀ (cleanDf : Dataset) (k : Nat) (towns : List String) (fd : Dataset) (mn mx : Rat),
       townFilter towns (sampleRows k cleanDf) = .ok fd →
       "year" ∈ cleanDf.cols → yearMinMax fd = some (mn, mx) →
       ((yearSliderShown cleanDf k towns = .ok false ↔ pyInt mn = pyInt mx) ∧
        (yearSliderShown cleanDf k towns = .ok true ↔ pyInt mn < pyInt mx))) := by
  constructor
  · intro cleanDf k towns fd hf hy
    rw [yearSliderShown_eq cleanDf k towns fd hf, if_neg hy]
  · intro cleanDf k towns fd mn mx hf hy hm
    rw [yearSliderShown_eq cleanDf k towns fd hf, if_pos hy, hm]
    have hle : pyInt mn ≤ pyInt mx := pyInt_mono _ _ (yearMinMax_le fd mn mx hm)
    change ((Except.ok (decide (pyInt mn < pyInt mx)) : Except PyExn Bool) = .ok false ↔
        pyInt mn = pyInt mx) ∧
      ((Except.ok (decide (pyInt mn < pyInt mx)) : Except PyExn Bool) = .ok true ↔
        pyInt mn < pyInt mx)
    refine ⟨⟨fun h => ?_, fun h => ?_⟩, ⟨fun h => ?_, fun h => ?_⟩⟩
    · injection h with h1
      have h2 := of_decide_eq_false h1
      omega
    · have h2 : ¬ (pyInt mn < pyInt mx) := by omega
      rw [decide_eq_false h2]
    · injection h with h1
      exact of_decide_eq_true h1
    · rw [decide_eq_true h]

theorem year_control_decision_witness :
    yearSliderShown dfTwoTowns 2 [] = .ok true ↔ pyInt 2022 < pyInt 2023 :=
  ((year_control_decision.2 dfTwoTowns 2 [] (sampleRows 2 dfTwoTowns) 2022 2023
    (by rfl) (by decide) (by rfl)).2)

/-- C2: a filter choice that empties the view (a non-empty town
selection matching zero sampled rows) does not reach the no-data
branch: with a `year` column present the pipeline first converts the
empty frame's NaN year bounds with `int(...)`, which raises
`ValueError` — not the explicit no-data outcome the spec requires. -/
theorem empty_town_selection_raises :
    townFilter ["NOWHERE"] (sampleRows 1 dfOneRow) =
      .ok ⟨["town", "resale_price", "year"], []⟩ ∧
    viewPipeline dfOneRow 1 ["NOWHERE"] (2023, 2023) =
      .error (.valueError "cannot convert float NaN to integer") := by
  exact ⟨by rfl, by rfl⟩

/-- C3 (counterexample): a success-status response whose JSON body
lacks the `result.records` structure makes `load_all_data` raise an
uncaught `KeyError` — it does not return the handled failure value. -/
theorem missing_records_crashes :
    load_all_data (.httpResponse 200 .jsonNoRecords) =
      .crashed (.keyError "result") := by
  rfl

/-- C3 (amended): network errors, non-success HTTP statuses and
non-JSON bodies are caught and yield the handled failure (message
shown, `None` returned) and a well-formed body yields the full parsed
frame with every record kept; but a JSON body without `result.records`
escapes as an uncaught `KeyError` rather than a `FetchFailure`. -/
theorem load_all_data_outcomes :
    (∀ m : String,
       load_all_data (.netError m) = .failed ("Error fetching data: " ++ m)) ∧
    (∀ (st : Nat) (b : FetchBody), 400 ≤ st →
       load_all_data (.httpResponse st b) = .failed "Error fetching data: HTTPError") ∧
    (∀ st : Nat, st < 400 →
       load_all_data (.httpResponse st .notJson) =
         .failed "Error fetching data: JSONDecodeError") ∧
    (∀ st : Nat, st < 400 →
       load_all_data (.httpResponse st .jsonNoRecords) =
         .crashed (.keyError "result")) ∧
    (∀ (st : Nat) (rs : List Row), st < 400 →
       load_all_data (.httpResponse st (.records rs)) = .ok (toDataFrame rs) ∧
       (toDataFrame rs).rows = rs) := by
  refine ⟨fun m => rfl, fun st b h => ?_, fun st h => ?_, fun st h => ?_,
    fun st rs h => ⟨?_, rfl⟩⟩
  · simp [load_all_data, h]
  · simp [load_all_data, Nat.not_le.mpr h]
  · simp [load_all_data, Nat.not_le.mpr h]
  · simp [load_all_data, Nat.not_le.mpr h]

theorem load_all_data_outcomes_witness :
    load_all_data (.httpResponse 200 (.records [[("town", Value.str "BEDOK")]])) =
      .ok (toDataFrame [[("town", Value.str "BEDOK")]]) ∧
    (toDataFrame [[("town", Value.str "BEDOK")]]).rows =
      [[("town", Value.str "BEDOK")]] :=
  load_all_data_outcomes.2.2.2.2 200 [[("town", Value.str "BEDOK")]] (by decide)

end HDB
